import Mathlib

/-!
Shallow embedding of `src/qt/transactionrecord.cpp` (transaction record
decomposition and status computation for a Qt wallet UI), together with
proofs of the specified properties.

Conventions of the embedding:
* C++ `int64` amounts are modelled as `Int` with exact arithmetic (the spec,
  §7, prescribes exact integer semantics for amounts).
* Unsigned quantities of the source (`wtx.nTimeReceived`, `wtx.nLockTime`,
  block heights) are modelled as `Nat`.  Where the source mixes signedness
  the C++ conversion rules are modelled explicitly: `nBestHeight - nLockTime`
  (`int` minus `unsigned int`) is computed in unsigned 32-bit arithmetic, so
  it appears as an explicit `% 2 ^ 32`; `GetAdjustedTime() - nTimeReceived`
  (`int64` minus `unsigned int`) promotes to `int64` and is exact.
* The wallet and chain-index collaborators (`CWallet`, `mapBlockIndex`,
  `nBestHeight`, `GetAdjustedTime`) are read-only oracles, passed in as
  record fields / function-valued snapshots.
* Member functions that mutate `this->status` are modelled as functions
  returning the updated record.
-/

namespace GorillaTeeth

/-- Record types, from the `TransactionRecord::Type` enumeration. -/
inductive RecordType
  | Generated
  | StakeMint
  | RecvWithAddress
  | RecvFromOther
  | SendToAddress
  | SendToOther
  | SendToSelf
  | Other
deriving DecidableEq

/-- Lifecycle states, from the `TransactionStatus::Status` enumeration. -/
inductive LifecycleStatus
  | OpenUntilBlock
  | OpenUntilDate
  | Offline
  | Unconfirmed
  | HaveConfirmations
deriving DecidableEq

/-- Maturity states, from the `TransactionStatus::Maturity` enumeration. -/
inductive MaturityStatus
  | NotApplicable
  | Immature
  | MaturesWarning
  | NotAccepted
  | Mature
deriving DecidableEq

/-- The mutable status snapshot attached to a record
(`struct TransactionStatus` of the class header). -/
structure TransactionStatus where
  sortKey : String
  confirmed : Bool
  depth : Int
  cur_num_blocks : Int
  status : LifecycleStatus
  open_for : Int
  maturity : MaturityStatus
  matures_in : Int
deriving DecidableEq

/-- Modelled from the spec: the default-constructed status snapshot of a
freshly created record (the constructor lives in the class header, which is
not part of the repository).  §3 gives `maturityState = NotApplicable` as the
value relevant only for non-reward records; the remaining fields start
empty/zero/unconfirmed.  No claim depends on these initial values. -/
def TransactionStatus.init : TransactionStatus :=
  { sortKey := ""
    confirmed := false
    depth := 0
    cur_num_blocks := 0
    status := .Unconfirmed
    open_for := 0
    maturity := .NotApplicable
    matures_in := 0 }

/-- One display row (`class TransactionRecord`).  `hash` stands for the
`uint256` transaction hash, modelled as a `Nat`. -/
structure TransactionRecord where
  hash : Nat
  time : Int
  type : RecordType
  address : String
  debit : Int
  credit : Int
  idx : Nat
  status : TransactionStatus
deriving DecidableEq

/-- Modelled from the spec: the two-argument record constructor
`TransactionRecord(hash, nTime)` of the class header (not in the repository).
Per §3 the index is a 0-based ordinal defaulting to 0, the counterparty
label defaults to empty and the amounts to 0; the type defaults to `Other`. -/
def TransactionRecord.mkHashTime (hash : Nat) (time : Int) : TransactionRecord :=
  { hash := hash
    time := time
    type := .Other
    address := ""
    debit := 0
    credit := 0
    idx := 0
    status := TransactionStatus.init }

/-- Modelled from the spec: the six-argument record constructor
`TransactionRecord(hash, nTime, type, address, debit, credit)` of the class
header (not in the repository); the argument order follows the spec's
scenarios (§8), and the index defaults to 0. -/
def TransactionRecord.mkFull (hash : Nat) (time : Int) (type : RecordType)
    (address : String) (debit credit : Int) : TransactionRecord :=
  { hash := hash
    time := time
    type := type
    address := address
    debit := debit
    credit := credit
    idx := 0
    status := TransactionStatus.init }

/-- A transaction input (`CTxIn`); only consulted through the wallet's
ownership oracle, so it is identified by an opaque tag. -/
structure CTxIn where
  tag : Nat
deriving DecidableEq

/-- A transaction output (`CTxOut`): its value `nValue`, and the result of
`ExtractAddress(txout.scriptPubKey, address)` — `some a` when the script
resolves to the address `a` (`address.ToString()`), `none` when extraction
fails. -/
structure CTxOut where
  nValue : Int
  extAddress : Option String
deriving DecidableEq

/-- A wallet transaction (`CWalletTx`) as seen through the read-only queries
the source performs on it.  `mapFrom`/`mapTo` model `mapValue["from"]` and
`mapValue["to"]` — `std::map<std::string,std::string>::operator[]` yields the
empty string when the key is absent. -/
structure CWalletTx where
  vin : List CTxIn
  vout : List CTxOut
  hash : Nat
  hashBlock : Nat
  txTime : Int
  credit : Int
  debit : Int
  valueOut : Int
  change : Int
  mapFrom : String
  mapTo : String
  isCoinBase : Bool
  isCoinStake : Bool
  depthInMainChain : Int
  nTimeReceived : Nat
  nLockTime : Nat
  isFinal : Bool
  isConfirmed : Bool
  isInMainChain : Bool
  blocksToMaturity : Int
  requestCount : Int

/-- The wallet ownership oracle (`CWallet` queries used by the source). -/
structure CWallet where
  isMineIn : CTxIn → Bool
  isMineOut : CTxOut → Bool
  haveKey : String → Bool

/-- Read-only snapshot of the global chain state the source consults:
`mapBlockIndex` (block hash → block height, `none` when the hash is not in
the index), `nBestHeight`, and `GetAdjustedTime()`. -/
structure ChainContext where
  mapBlockIndex : Nat → Option Nat
  nBestHeight : Int
  adjustedTime : Int

/-- `TransactionRecord::showTransaction`. -/
def showTransaction (wtx : CWalletTx) : Bool :=
  if wtx.isCoinBase then
    if wtx.depthInMainChain < 2 then false else true
  else true

/-- The credit loop of `TransactionRecord::decomposeTransaction`
(`BOOST_FOREACH` over `wtx.vout` in the `nNet > 0 || IsCoinBase` branch),
with the growing `parts` list threaded explicitly; `sub.idx = parts.size()`. -/
def creditLoop (wallet : CWallet) (wtx : CWalletTx) :
    List CTxOut → List TransactionRecord → List TransactionRecord
  | [], parts => parts
  | txout :: rest, parts =>
    if wallet.isMineOut txout then
      let base := TransactionRecord.mkHashTime wtx.hash wtx.txTime
      let withCredit := { base with idx := parts.length, credit := txout.nValue }
      let sub :=
        if wtx.isCoinBase then
          { withCredit with type := .Generated }
        else
          match txout.extAddress with
          | some a =>
            if wallet.haveKey a then
              { withCredit with type := .RecvWithAddress, address := a }
            else
              { withCredit with type := .RecvFromOther, address := wtx.mapFrom }
          | none =>
            { withCredit with type := .RecvFromOther, address := wtx.mapFrom }
      creditLoop wallet wtx rest (parts ++ [sub])
    else
      creditLoop wallet wtx rest parts

/-- The debit loop of `TransactionRecord::decomposeTransaction` (the
`fAllFromMe && !fAllToMe` branch): iterate the outputs in order, skip
wallet-owned (change) outputs, fold the fee into the first emitted record
(`if (nTxFee > 0) { nValue += nTxFee; nTxFee = 0; }`); the mutable `nTxFee`
is threaded explicitly. -/
def debitLoop (wallet : CWallet) (wtx : CWalletTx) :
    List CTxOut → Int → List TransactionRecord → List TransactionRecord
  | [], _, parts => parts
  | txout :: rest, nTxFee, parts =>
    if wallet.isMineOut txout then
      debitLoop wallet wtx rest nTxFee parts
    else
      let base := TransactionRecord.mkHashTime wtx.hash wtx.txTime
      let withIdx := { base with idx := parts.length }
      let classified :=
        match txout.extAddress with
        | some a => { withIdx with type := .SendToAddress, address := a }
        | none => { withIdx with type := .SendToOther, address := wtx.mapTo }
      let nValue := if nTxFee > 0 then txout.nValue + nTxFee else txout.nValue
      let nTxFeeNext := if nTxFee > 0 then 0 else nTxFee
      debitLoop wallet wtx rest nTxFeeNext
        (parts ++ [{ classified with debit := -nValue }])

/-- `TransactionRecord::decomposeTransaction`. -/
def decomposeTransaction (wallet : CWallet) (wtx : CWalletTx) :
    List TransactionRecord :=
  let nTime := wtx.txTime
  let nCredit := wtx.credit
  let nDebit := wtx.debit
  let nNet := nCredit - nDebit
  let hash := wtx.hash
  if showTransaction wtx then
    if wtx.isCoinStake then
      [TransactionRecord.mkFull hash nTime .StakeMint "" (-nDebit) wtx.valueOut]
    else if nNet > 0 ∨ wtx.isCoinBase then
      creditLoop wallet wtx wtx.vout []
    else
      let fAllFromMe := wtx.vin.all wallet.isMineIn
      let fAllToMe := wtx.vout.all wallet.isMineOut
      if fAllFromMe ∧ fAllToMe then
        let nChange := wtx.change
        [TransactionRecord.mkFull hash nTime .SendToSelf ""
          (-(nDebit - nChange)) (nCredit - nChange)]
      else if fAllFromMe then
        let nTxFee := nDebit - wtx.valueOut
        debitLoop wallet wtx wtx.vout nTxFee []
      else
        [TransactionRecord.mkFull hash nTime .Other "" nNet 0]
  else
    []

/-- The decimal digit characters, `'0'` … `'9'` (`d ≥ 9` maps to `'9'`;
only `d < 10` occurs). -/
def digitChar (d : Nat) : Char :=
  match d with
  | 0 => '0' | 1 => '1' | 2 => '2' | 3 => '3' | 4 => '4'
  | 5 => '5' | 6 => '6' | 7 => '7' | 8 => '8' | _ => '9'

/-- Fuel-driven most-significant-first decimal digits of a natural number.
With fuel above `n` this computes the usual decimal representation. -/
def digitsAux : Nat → Nat → List Char
  | 0, _ => []
  | fuel + 1, n =>
    if n < 10 then [digitChar n]
    else digitsAux fuel (n / 10) ++ [digitChar (n % 10)]

/-- Decimal representation of `n`, most significant digit first. -/
def natDigits (n : Nat) : List Char :=
  digitsAux (n + 1) n

/-- Zero-padded decimal formatting to a minimum width, as produced by
`strprintf` with a `%0Wd` / `%0Wu` conversion for a nonnegative value. -/
def fmtNat (w n : Nat) : List Char :=
  List.replicate (w - (natDigits n).length) '0' ++ natDigits n

/-- Modelled from the spec: the `LOCKTIME_THRESHOLD` constant referenced by
the source but defined in a header outside the repository — the
"block-height/timestamp threshold" for interpreting `nLockTime`
(the standard value: lock values below it are block heights). -/
def LOCKTIME_THRESHOLD : Nat := 500000000

/-- Modelled from the spec: `TransactionRecord::NumConfirmations`, the
"minimum-confirmations threshold" of §4.3 (declared in the class header,
which is not in the repository).  The claims only compare `depth`
against it; the customary value is 6. -/
def NumConfirmations : Int := 6

/-- The sentinel used for unconfirmed transactions in the sort key:
`std::numeric_limits<int>::max()`. -/
def INT_MAX_SENTINEL : Nat := 2147483647

/-- The sort key built by `updateStatus`:
`strprintf("%010d-%01d-%010u-%03d", heightOrSentinel, coinbaseFlag,
wtx.nTimeReceived, idx)`. -/
def mkSortKey (heightField : Nat) (coinbaseFlag : Nat) (timeReceived : Nat)
    (idx : Nat) : String :=
  String.mk (fmtNat 10 heightField ++ '-' ::
    (fmtNat 1 coinbaseFlag ++ '-' ::
      (fmtNat 10 timeReceived ++ '-' :: fmtNat 3 idx)))

/-- `TransactionRecord::updateStatus`, modelled as a function from the
record (plus the chain snapshot and the wallet transaction) to the updated
record.  The C++ member function mutates only `this->status`.  In the
`OpenUntilBlock` branch the source's `nBestHeight - wtx.nLockTime` subtracts
an `unsigned int` from an `int`, which C++ computes in unsigned 32-bit
arithmetic before widening into the `int64` field, hence the explicit
`% 2 ^ 32` (the difference wraps to a large nonnegative value whenever
`nLockTime > nBestHeight`). -/
def updateStatus (rec : TransactionRecord) (ctx : ChainContext)
    (wtx : CWalletTx) : TransactionRecord :=
  let heightField : Nat :=
    match ctx.mapBlockIndex wtx.hashBlock with
    | some h => h
    | none => INT_MAX_SENTINEL
  let base :=
    { rec.status with
      sortKey := mkSortKey heightField (if wtx.isCoinBase then 1 else 0)
        wtx.nTimeReceived rec.idx
      confirmed := wtx.isConfirmed
      depth := wtx.depthInMainChain
      cur_num_blocks := ctx.nBestHeight }
  let afterLifecycle :=
    if ¬ wtx.isFinal then
      if wtx.nLockTime < LOCKTIME_THRESHOLD then
        { base with status := .OpenUntilBlock
                    open_for :=
                      (ctx.nBestHeight - (wtx.nLockTime : Int)) % 2 ^ 32 }
      else
        { base with status := .OpenUntilDate
                    open_for := (wtx.nLockTime : Int) }
    else
      if ctx.adjustedTime - (wtx.nTimeReceived : Int) > 2 * 60 ∧
          wtx.requestCount = 0 then
        { base with status := .Offline }
      else if base.depth < NumConfirmations then
        { base with status := .Unconfirmed }
      else
        { base with status := .HaveConfirmations }
  let afterMaturity :=
    if rec.type = .Generated ∨ rec.type = .StakeMint then
      if wtx.credit = 0 then
        if wtx.isInMainChain then
          let immature :=
            { afterLifecycle with maturity := .Immature
                                  matures_in := wtx.blocksToMaturity }
          if ctx.adjustedTime - (wtx.nTimeReceived : Int) > 2 * 60 ∧
              wtx.requestCount = 0 then
            { immature with maturity := .MaturesWarning }
          else
            immature
        else
          { afterLifecycle with maturity := .NotAccepted }
      else
        { afterLifecycle with maturity := .Mature }
    else
      afterLifecycle
  { rec with status := afterMaturity }

/-! ### Properties of the zero-padded decimal formatting -/

theorem digitsAux_irrel (n : Nat) :
    ∀ f₁ f₂, n < f₁ → n < f₂ → digitsAux f₁ n = digitsAux f₂ n := by
  induction n using Nat.strong_induction_on with
  | _ n ih =>
    intro f₁ f₂ h₁ h₂
    cases f₁ with
    | zero => omega
    | succ g₁ =>
      cases f₂ with
      | zero => omega
      | succ g₂ =>
        simp only [digitsAux]
        by_cases hn : n < 10
        · simp [hn]
        · have hd : n / 10 < n := Nat.div_lt_self (by omega) (by omega)
          simp only [if_neg hn]
          rw [ih (n / 10) hd g₁ g₂ (by omega) (by omega)]

theorem natDigits_lt_ten (n : Nat) (h : n < 10) : natDigits n = [digitChar n] := by
  simp [natDigits, digitsAux, h]

theorem natDigits_ge_ten (n : Nat) (h : 10 ≤ n) :
    natDigits n = natDigits (n / 10) ++ [digitChar (n % 10)] := by
  show digitsAux (n + 1) n = digitsAux (n / 10 + 1) (n / 10) ++ [digitChar (n % 10)]
  rw [digitsAux_irrel (n / 10) (n / 10 + 1) n (by omega) (by omega)]
  simp only [digitsAux, if_neg (by omega : ¬ n < 10)]

theorem natDigits_length_le (n : Nat) :
    ∀ w, 1 ≤ w → n < 10 ^ w → (natDigits n).length ≤ w := by
  induction n using Nat.strong_induction_on with
  | _ n ih =>
    intro w hw hn
    by_cases h : n < 10
    · rw [natDigits_lt_ten n h]
      simpa using hw
    · have hd : n / 10 < n := Nat.div_lt_self (by omega) (by omega)
      have hw2 : 2 ≤ w := by
        by_contra hcon
        have hw1 : w = 1 := by omega
        subst hw1
        rw [pow_one] at hn
        omega
      have hq : n / 10 < 10 ^ (w - 1) := by
        rw [Nat.div_lt_iff_lt_mul (by omega : (0:Nat) < 10)]
        calc n < 10 ^ w := hn
          _ = 10 ^ (w - 1) * 10 := by
            rw [← pow_succ]
            congr 1
            omega
      have hrec := ih (n / 10) hd (w - 1) (by omega) hq
      rw [natDigits_ge_ten n (by omega)]
      simp only [List.length_append, List.length_singleton]
      omega

theorem fmtNat_succ (w n : Nat) (hw : 1 ≤ w) :
    fmtNat (w + 1) n = fmtNat w (n / 10) ++ [digitChar (n % 10)] := by
  by_cases h : n < 10
  · have h0 : n / 10 = 0 := Nat.div_eq_of_lt h
    have hm : n % 10 = n := Nat.mod_eq_of_lt h
    obtain ⟨v, rfl⟩ : ∃ v, w = v + 1 := ⟨w - 1, by omega⟩
    rw [fmtNat, fmtNat, natDigits_lt_ten n h, h0, hm, natDigits_lt_ten 0 (by omega)]
    simp only [List.length_singleton, Nat.add_sub_cancel]
    have hrep : List.replicate (v + 1) '0' =
        List.replicate v '0' ++ [digitChar 0] :=
      List.replicate_succ' v '0'
    rw [hrep, List.append_assoc]
  · rw [fmtNat, fmtNat, natDigits_ge_ten n (by omega)]
    simp only [List.length_append, List.length_singleton]
    rw [show w + 1 - ((natDigits (n / 10)).length + 1)
        = w - (natDigits (n / 10)).length by omega]
    rw [← List.append_assoc]

theorem fmtNat_length (w n : Nat) (hw : 1 ≤ w) (hn : n < 10 ^ w) :
    (fmtNat w n).length = w := by
  have hL := natDigits_length_le n w hw hn
  simp only [fmtNat, List.length_append, List.length_replicate]
  omega

theorem digitChar_mono : ∀ a < 10, ∀ b < 10, a < b → digitChar a < digitChar b := by
  decide

/-! ### Lexicographic-order helpers -/

theorem lex_append_of_length_eq {r : Char → Char → Prop} {s t : List Char}
    (hlex : List.Lex r s t) (hlen : s.length = t.length) (u v : List Char) :
    List.Lex r (s ++ u) (t ++ v) := by
  induction hlex with
  | nil => simp at hlen
  | @cons a l₁ l₂ h ih =>
    exact List.Lex.cons (ih (by simpa using hlen))
  | rel h => exact List.Lex.rel h

theorem lex_append_same {r : Char → Char → Prop} (p : List Char) {c d : Char}
    (h : r c d) (u v : List Char) :
    List.Lex r (p ++ c :: u) (p ++ d :: v) := by
  induction p with
  | nil => exact List.Lex.rel h
  | cons a p ih => exact List.Lex.cons ih

theorem fmtNat_strict_mono (w : Nat) :
    ∀ a b : Nat, a < b → b < 10 ^ w →
      List.Lex (· < ·) (fmtNat w a) (fmtNat w b) := by
  induction w with
  | zero => intro a b hab hb; omega
  | succ w ih =>
    intro a b hab hb
    rcases Nat.eq_zero_or_pos w with hw0 | hw
    · subst hw0
      have ha10 : a < 10 := by simpa using (by omega : a < 10 ^ 1)
      have hb10 : b < 10 := by simpa using hb
      rw [fmtNat, fmtNat, natDigits_lt_ten a ha10, natDigits_lt_ten b hb10]
      simp only [List.length_singleton, Nat.sub_self, List.replicate_zero,
        List.nil_append]
      exact List.Lex.rel (digitChar_mono a ha10 b hb10 hab)
    · rw [fmtNat_succ w a hw, fmtNat_succ w b hw]
      have hbq : b / 10 < 10 ^ w := by
        rw [Nat.div_lt_iff_lt_mul (by omega : (0:Nat) < 10)]
        calc b < 10 ^ (w + 1) := hb
          _ = 10 ^ w * 10 := by rw [pow_succ]
      by_cases hq : a / 10 < b / 10
      · have haq : a / 10 < 10 ^ w := by omega
        exact lex_append_of_length_eq (ih (a / 10) (b / 10) hq hbq)
          (by rw [fmtNat_length w (a / 10) hw haq, fmtNat_length w (b / 10) hw hbq])
          _ _
      · have hq' : a / 10 = b / 10 := by omega
        have hm : a % 10 < b % 10 := by omega
        rw [hq']
        exact lex_append_same _
          (digitChar_mono (a % 10) (by omega) (b % 10) (by omega) hm) _ _

theorem string_mk_lt_of_lex {s t : List Char} (h : List.Lex (· < ·) s t) :
    String.mk s < String.mk t := by
  rw [String.lt_iff_toList_lt]
  exact h

theorem sortKey_lt_of_height_lt {h₁ h₂ : Nat} (hlt : h₁ < h₂)
    (hb : h₂ < 10 ^ 10) (cb₁ cb₂ t₁ t₂ i₁ i₂ : Nat) :
    mkSortKey h₁ cb₁ t₁ i₁ < mkSortKey h₂ cb₂ t₂ i₂ := by
  apply string_mk_lt_of_lex
  exact lex_append_of_length_eq (fmtNat_strict_mono 10 h₁ h₂ hlt hb)
    (by rw [fmtNat_length 10 h₁ (by omega) (by omega),
      fmtNat_length 10 h₂ (by omega) hb]) _ _

/-! ### Position-indexed mapping (spec-side combinator) -/

/-- Map `f` over a list together with a running 0-based position counter
starting at `k`. -/
def mapIdx {α β : Type} (f : Nat → α → β) : Nat → List α → List β
  | _, [] => []
  | k, a :: l => f k a :: mapIdx f (k + 1) l

theorem mapIdx_length {α β : Type} (f : Nat → α → β) :
    ∀ (l : List α) (k : Nat), (mapIdx f k l).length = l.length := by
  intro l
  induction l with
  | nil => intro k; rfl
  | cons a l ih => intro k; simp [mapIdx, ih]

theorem mapIdx_congr {α β : Type} (f g : Nat → α → β) :
    ∀ (l : List α) (k : Nat), (∀ i a, k ≤ i → f i a = g i a) →
      mapIdx f k l = mapIdx g k l := by
  intro l
  induction l with
  | nil => intro k _; rfl
  | cons a l ih =>
    intro k h
    simp only [mapIdx]
    rw [h k a (le_refl k), ih (k + 1) (fun i b hi => h i b (by omega))]

theorem mapIdx_map_idx (f : Nat → CTxOut → TransactionRecord)
    (hf : ∀ i a, (f i a).idx = i) :
    ∀ (l : List CTxOut) (k : Nat),
      (mapIdx f k l).map TransactionRecord.idx = List.range' k l.length := by
  intro l
  induction l with
  | nil => intro k; rfl
  | cons a l ih =>
    intro k
    simp only [mapIdx, List.map_cons, List.length_cons, List.range'_succ, hf]
    rw [ih (k + 1)]

/-! ### Characterization of the decomposition loops -/

theorem creditLoop_eq (wallet : CWallet) (wtx : CWalletTx) :
    ∀ (outs : List CTxOut) (parts : List TransactionRecord),
      creditLoop wallet wtx outs parts =
        parts ++ mapIdx (fun i txout =>
          { hash := wtx.hash
            time := wtx.txTime
            type := if wtx.isCoinBase then .Generated
              else match txout.extAddress with
                | some a =>
                  if wallet.haveKey a then .RecvWithAddress else .RecvFromOther
                | none => .RecvFromOther
            address := if wtx.isCoinBase then ""
              else match txout.extAddress with
                | some a => if wallet.haveKey a then a else wtx.mapFrom
                | none => wtx.mapFrom
            debit := 0
            credit := txout.nValue
            idx := i
            status := TransactionStatus.init })
          parts.length (outs.filter wallet.isMineOut) := by
  intro outs
  induction outs with
  | nil => intro parts; simp [creditLoop, mapIdx]
  | cons txout rest ih =>
    intro parts
    by_cases hmine : wallet.isMineOut txout = true
    · simp only [creditLoop]
      rw [if_pos hmine, ih]
      have hfil : (txout :: rest).filter wallet.isMineOut =
          txout :: rest.filter wallet.isMineOut := by
        simp [List.filter_cons, hmine]
      rw [hfil]
      simp only [List.length_append, List.length_singleton, mapIdx,
        List.append_assoc, List.singleton_append]
      congr 2
      by_cases hcb : wtx.isCoinBase = true
      · simp [hcb, TransactionRecord.mkHashTime]
      · cases hEA : txout.extAddress with
        | some a =>
          by_cases hk : wallet.haveKey a = true
          · simp [hcb, hEA, hk, TransactionRecord.mkHashTime]
          · simp [hcb, hEA, hk, TransactionRecord.mkHashTime]
        | none => simp [hcb, hEA, TransactionRecord.mkHashTime]
    · simp only [creditLoop]
      rw [if_neg hmine, ih]
      have hfil : (txout :: rest).filter wallet.isMineOut =
          rest.filter wallet.isMineOut := by
        simp only [List.filter_cons]
        rw [if_neg (by simpa using hmine)]
      rw [hfil]

theorem debitLoop_eq (wallet : CWallet) (wtx : CWalletTx) :
    ∀ (outs : List CTxOut) (fee : Int) (parts : List TransactionRecord),
      debitLoop wallet wtx outs fee parts =
        parts ++ mapIdx (fun i txout =>
          { hash := wtx.hash
            time := wtx.txTime
            type := match txout.extAddress with
              | some _ => .SendToAddress
              | none => .SendToOther
            address := match txout.extAddress with
              | some a => a
              | none => wtx.mapTo
            debit := -(txout.nValue +
              if i = parts.length ∧ fee > 0 then fee else 0)
            credit := 0
            idx := i
            status := TransactionStatus.init })
          parts.length (outs.filter (fun o => ! wallet.isMineOut o)) := by
  intro outs
  induction outs with
  | nil => intro fee parts; simp [debitLoop, mapIdx]
  | cons txout rest ih =>
    intro fee parts
    by_cases hmine : wallet.isMineOut txout = true
    · simp only [debitLoop]
      rw [if_pos hmine, ih]
      have hfil : (txout :: rest).filter (fun o => ! wallet.isMineOut o) =
          rest.filter (fun o => ! wallet.isMineOut o) := by
        simp [List.filter_cons, hmine]
      rw [hfil]
    · simp only [debitLoop]
      rw [if_neg hmine, ih]
      have hfil : (txout :: rest).filter (fun o => ! wallet.isMineOut o) =
          txout :: rest.filter (fun o => ! wallet.isMineOut o) := by
        simp [List.filter_cons, hmine]
      rw [hfil]
      simp only [List.length_append, List.length_singleton, mapIdx,
        List.append_assoc, List.singleton_append]
      congr 2
      · cases hEA : txout.extAddress with
        | some a =>
          simp only [hEA, TransactionRecord.mkHashTime]
          by_cases hf : fee > 0
          · simp [hf]
          · simp [hf]
        | none =>
          simp only [hEA, TransactionRecord.mkHashTime]
          by_cases hf : fee > 0
          · simp [hf]
          · simp [hf]
      · apply mapIdx_congr
        intro i o hi
        have hA : ¬ (i = parts.length + 1 ∧ (if fee > 0 then (0:Int) else fee) > 0) := by
          by_cases hf : fee > 0
          · simp [hf]
          · simp [hf]
        have hB : ¬ (i = parts.length ∧ fee > 0) := by
          intro hand
          omega
        rw [if_neg hA, if_neg hB]


/-! ### Projections of `updateStatus` -/

theorem updateStatus_sortKey (rec : TransactionRecord) (ctx : ChainContext)
    (wtx : CWalletTx) :
    (updateStatus rec ctx wtx).status.sortKey =
      mkSortKey
        (match ctx.mapBlockIndex wtx.hashBlock with
          | some h => h
          | none => INT_MAX_SENTINEL)
        (if wtx.isCoinBase then 1 else 0) wtx.nTimeReceived rec.idx := by
  simp only [updateStatus]
  split_ifs <;> rfl

/-! ### Claim C8 (corrected): the lifecycle-state ladder of `updateStatus` -/

/-- C8 (amended): `updateStatus` assigns the lifecycle state by the
exclusive ladder: not final and lock value below the threshold constant
gives `OpenUntilBlock` with `open_for` equal to `nBestHeight - nLockTime`
reduced modulo 2^32 (the source computes the difference in unsigned 32-bit
arithmetic; it equals the exact difference whenever that difference lies in
[0, 2^32), in particular in the height-100/lock-90 scenario); not final
otherwise gives `OpenUntilDate` with `open_for = nLockTime`; final with
more than 120 seconds elapsed since receipt and request count zero gives
`Offline`; otherwise depth below the minimum-confirmations threshold gives
`Unconfirmed`; otherwise `HaveConfirmations`. -/
theorem c8_lifecycle_ladder (rec : TransactionRecord) (ctx : ChainContext)
    (wtx : CWalletTx) :
    (wtx.isFinal = false →
      (wtx.nLockTime < LOCKTIME_THRESHOLD →
        (updateStatus rec ctx wtx).status.status = .OpenUntilBlock ∧
        (updateStatus rec ctx wtx).status.open_for =
          (ctx.nBestHeight - (wtx.nLockTime : Int)) % 2 ^ 32 ∧
        (0 ≤ ctx.nBestHeight - (wtx.nLockTime : Int) →
          ctx.nBestHeight - (wtx.nLockTime : Int) < 2 ^ 32 →
          (updateStatus rec ctx wtx).status.open_for =
            ctx.nBestHeight - (wtx.nLockTime : Int))) ∧
      (¬ wtx.nLockTime < LOCKTIME_THRESHOLD →
        (updateStatus rec ctx wtx).status.status = .OpenUntilDate ∧
        (updateStatus rec ctx wtx).status.open_for = (wtx.nLockTime : Int))) ∧
    (wtx.isFinal = true →
      ((ctx.adjustedTime - (wtx.nTimeReceived : Int) > 2 * 60 ∧
          wtx.requestCount = 0) →
        (updateStatus rec ctx wtx).status.status = .Offline) ∧
      (¬ (ctx.adjustedTime - (wtx.nTimeReceived : Int) > 2 * 60 ∧
          wtx.requestCount = 0) →
        (wtx.depthInMainChain < NumConfirmations →
          (updateStatus rec ctx wtx).status.status = .Unconfirmed) ∧
        (¬ wtx.depthInMainChain < NumConfirmations →
          (updateStatus rec ctx wtx).status.status = .HaveConfirmations))) := by
  constructor
  · intro hfin
    have hnf : ¬ wtx.isFinal = true := by simp [hfin]
    constructor
    · intro hlock
      simp only [updateStatus]
      rw [if_pos hnf, if_pos hlock]
      split_ifs <;> exact ⟨rfl, rfl, fun h₁ h₂ => Int.emod_eq_of_lt h₁ h₂⟩
    · intro hlock
      simp only [updateStatus]
      rw [if_pos hnf, if_neg hlock]
      split_ifs <;> exact ⟨rfl, rfl⟩
  · intro hfin
    have hnnf : ¬ ¬ wtx.isFinal = true := by simp [hfin]
    constructor
    · intro hoff
      simp only [updateStatus]
      rw [if_neg hnnf, if_pos hoff]
      split_ifs <;> rfl
    · intro hoff
      constructor
      · intro hdep
        simp only [updateStatus]
        rw [if_neg hnnf, if_neg hoff, if_pos hdep]
        split_ifs <;> rfl
      · intro hdep
        simp only [updateStatus]
        rw [if_neg hnnf, if_neg hoff, if_neg hdep]
        split_ifs <;> rfl

def wtxC8 : CWalletTx :=
  { vin := [], vout := [], hash := 1, hashBlock := 0, txTime := 0, credit := 0,
    debit := 0, valueOut := 0, change := 0, mapFrom := "", mapTo := "",
    isCoinBase := false, isCoinStake := false, depthInMainChain := 0,
    nTimeReceived := 0, nLockTime := 90, isFinal := false, isConfirmed := false,
    isInMainChain := false, blocksToMaturity := 0, requestCount := 0 }

def recC8 : TransactionRecord := TransactionRecord.mkHashTime 1 0

def ctxC8 : ChainContext :=
  { mapBlockIndex := fun _ => none, nBestHeight := 100, adjustedTime := 0 }

/-- C8 witness: the spec scenario — not final, lock value 90 below the
threshold, current height 100 — yields `OpenUntilBlock` with `open_for = 10`. -/
theorem c8_lifecycle_ladder_witness :
    wtxC8.isFinal = false ∧ wtxC8.nLockTime < LOCKTIME_THRESHOLD ∧
    (updateStatus recC8 ctxC8 wtxC8).status.status = .OpenUntilBlock ∧
    (updateStatus recC8 ctxC8 wtxC8).status.open_for = 10 := by
  have h := ((c8_lifecycle_ladder recC8 ctxC8 wtxC8).1 rfl).1 (by decide)
  refine ⟨rfl, by decide, h.1, ?_⟩
  rw [h.2.1]
  decide

def wtxC8w : CWalletTx :=
  { vin := [], vout := [], hash := 8, hashBlock := 0, txTime := 0, credit := 0,
    debit := 0, valueOut := 0, change := 0, mapFrom := "", mapTo := "",
    isCoinBase := false, isCoinStake := false, depthInMainChain := 0,
    nTimeReceived := 0, nLockTime := 150, isFinal := false,
    isConfirmed := false, isInMainChain := false, blocksToMaturity := 0,
    requestCount := 0 }

def recC8w : TransactionRecord := TransactionRecord.mkHashTime 8 0

def ctxC8w : ChainContext :=
  { mapBlockIndex := fun _ => none, nBestHeight := 100, adjustedTime := 0 }

/-- C8 counterexample: a non-final transaction with lock value 150 (below
the threshold) at current height 100 does get `OpenUntilBlock`, but the
source's `int` minus `unsigned int` subtraction wraps modulo 2^32:
`open_for` is 4294967246, not the claimed `currentHeight - lockValue = -50`. -/
theorem c8_open_for_wrap_counterexample :
    wtxC8w.isFinal = false ∧ wtxC8w.nLockTime < LOCKTIME_THRESHOLD ∧
    (updateStatus recC8w ctxC8w wtxC8w).status.status = .OpenUntilBlock ∧
    (updateStatus recC8w ctxC8w wtxC8w).status.open_for = 4294967246 ∧
    (updateStatus recC8w ctxC8w wtxC8w).status.open_for ≠
      ctxC8w.nBestHeight - (wtxC8w.nLockTime : Int) := by
  refine ⟨rfl, by decide, by decide, by decide, by decide⟩

/-! ### Claim C9: reward-record maturity in `updateStatus` -/

/-- C9: for a `Generated` or `StakeMint` record, `updateStatus` sets
maturity to `Immature` with `matures_in` the remaining maturity blocks when
the wallet credit is zero and the transaction is in the main chain
(upgraded to `MaturesWarning` when the 120-seconds-and-never-requested
condition also holds), to `NotAccepted` when the credit is zero and the
transaction is not in the main chain, and to `Mature` when the credit is
non-zero. -/
theorem c9_reward_maturity (rec : TransactionRecord) (ctx : ChainContext)
    (wtx : CWalletTx) (hty : rec.type = .Generated ∨ rec.type = .StakeMint) :
    (wtx.credit = 0 →
      (wtx.isInMainChain = true →
        (¬ (ctx.adjustedTime - (wtx.nTimeReceived : Int) > 2 * 60 ∧
            wtx.requestCount = 0) →
          (updateStatus rec ctx wtx).status.maturity = .Immature ∧
          (updateStatus rec ctx wtx).status.matures_in = wtx.blocksToMaturity) ∧
        ((ctx.adjustedTime - (wtx.nTimeReceived : Int) > 2 * 60 ∧
            wtx.requestCount = 0) →
          (updateStatus rec ctx wtx).status.maturity = .MaturesWarning ∧
          (updateStatus rec ctx wtx).status.matures_in = wtx.blocksToMaturity)) ∧
      (wtx.isInMainChain = false →
        (updateStatus rec ctx wtx).status.maturity = .NotAccepted)) ∧
    (¬ wtx.credit = 0 →
      (updateStatus rec ctx wtx).status.maturity = .Mature) := by
  refine ⟨fun hc => ⟨fun hmain => ⟨fun hw => ?_, fun hw => ?_⟩, fun hmain => ?_⟩,
    fun hc => ?_⟩
  · simp only [updateStatus]
    rw [if_pos hty, if_pos hc, if_pos hmain, if_neg hw]
    exact ⟨rfl, rfl⟩
  · simp only [updateStatus]
    rw [if_pos hty, if_pos hc, if_pos hmain, if_pos hw]
    exact ⟨rfl, rfl⟩
  · have hnm : ¬ wtx.isInMainChain = true := by simp [hmain]
    simp only [updateStatus]
    rw [if_pos hty, if_pos hc, if_neg hnm]
  · simp only [updateStatus]
    rw [if_pos hty, if_neg hc]

def wtxC9 : CWalletTx :=
  { vin := [], vout := [], hash := 2, hashBlock := 0, txTime := 0, credit := 0,
    debit := 0, valueOut := 0, change := 0, mapFrom := "", mapTo := "",
    isCoinBase := true, isCoinStake := false, depthInMainChain := 2,
    nTimeReceived := 0, nLockTime := 0, isFinal := true, isConfirmed := false,
    isInMainChain := true, blocksToMaturity := 50, requestCount := 0 }

def recC9 : TransactionRecord :=
  { TransactionRecord.mkHashTime 2 0 with type := .Generated }

def ctxC9 : ChainContext :=
  { mapBlockIndex := fun _ => none, nBestHeight := 0, adjustedTime := 0 }

/-- C9 witness: a `Generated` record with zero wallet credit, in the main
chain, without the offline-like condition, is `Immature` with 50 blocks to
maturity. -/
theorem c9_reward_maturity_witness :
    recC9.type = .Generated ∧ wtxC9.credit = 0 ∧ wtxC9.isInMainChain = true ∧
    (updateStatus recC9 ctxC9 wtxC9).status.maturity = .Immature ∧
    (updateStatus recC9 ctxC9 wtxC9).status.matures_in = 50 := by
  have h := (((c9_reward_maturity recC9 ctxC9 wtxC9 (Or.inl rfl)).1 rfl).1
    rfl).1 (by decide)
  refine ⟨rfl, rfl, rfl, h.1, ?_⟩
  rw [h.2]
  rfl

/-! ### Claim C10: `updateStatus` mutates only the status snapshot -/

/-- C10: `updateStatus` leaves the record's hash, index, timestamp, type,
counterparty address, debit and credit unchanged, and for a record whose
type is neither `Generated` nor `StakeMint` it never writes the maturity
field (the prior value is kept, never reset to `NotApplicable`). -/
theorem c10_updateStatus_frame (rec : TransactionRecord) (ctx : ChainContext)
    (wtx : CWalletTx) :
    (updateStatus rec ctx wtx).hash = rec.hash ∧
    (updateStatus rec ctx wtx).idx = rec.idx ∧
    (updateStatus rec ctx wtx).time = rec.time ∧
    (updateStatus rec ctx wtx).type = rec.type ∧
    (updateStatus rec ctx wtx).address = rec.address ∧
    (updateStatus rec ctx wtx).debit = rec.debit ∧
    (updateStatus rec ctx wtx).credit = rec.credit ∧
    (¬ (rec.type = .Generated ∨ rec.type = .StakeMint) →
      (updateStatus rec ctx wtx).status.maturity = rec.status.maturity) := by
  refine ⟨rfl, rfl, rfl, rfl, rfl, rfl, rfl, fun hty => ?_⟩
  simp only [updateStatus]
  split_ifs <;> simp_all

def wtxC10 : CWalletTx :=
  { vin := [], vout := [], hash := 7, hashBlock := 0, txTime := 3, credit := 1,
    debit := 0, valueOut := 0, change := 0, mapFrom := "", mapTo := "",
    isCoinBase := false, isCoinStake := false, depthInMainChain := 9,
    nTimeReceived := 0, nLockTime := 0, isFinal := true, isConfirmed := true,
    isInMainChain := true, blocksToMaturity := 0, requestCount := 1 }

def recC10 : TransactionRecord :=
  { hash := 7, time := 3, type := .SendToAddress, address := "1abc",
    debit := -5, credit := 0, idx := 2,
    status := { TransactionStatus.init with maturity := .Mature } }

def ctxC10 : ChainContext :=
  { mapBlockIndex := fun _ => some 11, nBestHeight := 20, adjustedTime := 0 }

/-- C10 witness: on a `SendToAddress` record, `updateStatus` preserves the
identifying fields and leaves the previously `Mature` maturity untouched. -/
theorem c10_updateStatus_frame_witness :
    ¬ (recC10.type = .Generated ∨ recC10.type = .StakeMint) ∧
    (updateStatus recC10 ctxC10 wtxC10).hash = recC10.hash ∧
    (updateStatus recC10 ctxC10 wtxC10).idx = recC10.idx ∧
    (updateStatus recC10 ctxC10 wtxC10).status.maturity = .Mature := by
  have h := c10_updateStatus_frame recC10 ctxC10 wtxC10
  refine ⟨by decide, h.1, h.2.1, ?_⟩
  rw [h.2.2.2.2.2.2.2 (by decide)]
  rfl

/-! ### Claim C1 (corrected): sort-key ordering of unconfirmed vs confirmed -/

/-- C1 (amended): the `sortKey` computed by `updateStatus` for an unconfirmed
transaction (no confirming block found in the block index, so the sentinel
maximum height `INT_MAX` is used) is lexicographically **greater** than the
`sortKey` computed for a transaction confirmed at any block height below the
sentinel, regardless of their receive times, coinbase flags, or record
indices — equivalently, every confirmed `sortKey` is lexicographically less
than every unconfirmed one, so unconfirmed transactions sort to the far end,
not ahead, in ascending lexicographic order. -/
theorem c1_confirmed_sortKey_lt_unconfirmed
    (rec₁ rec₂ : TransactionRecord) (ctx₁ ctx₂ : ChainContext)
    (wtx₁ wtx₂ : CWalletTx) (h : Nat)
    (h₁ : ctx₁.mapBlockIndex wtx₁.hashBlock = none)
    (h₂ : ctx₂.mapBlockIndex wtx₂.hashBlock = some h)
    (hh : h < INT_MAX_SENTINEL) :
    (updateStatus rec₂ ctx₂ wtx₂).status.sortKey <
      (updateStatus rec₁ ctx₁ wtx₁).status.sortKey := by
  rw [updateStatus_sortKey, updateStatus_sortKey, h₁, h₂]
  exact sortKey_lt_of_height_lt hh (by decide) _ _ _ _ _ _

def wtxC1u : CWalletTx :=
  { vin := [], vout := [], hash := 1, hashBlock := 10, txTime := 0, credit := 0,
    debit := 0, valueOut := 0, change := 0, mapFrom := "", mapTo := "",
    isCoinBase := false, isCoinStake := false, depthInMainChain := 0,
    nTimeReceived := 7, nLockTime := 0, isFinal := true, isConfirmed := false,
    isInMainChain := false, blocksToMaturity := 0, requestCount := 1 }

def wtxC1c : CWalletTx :=
  { vin := [], vout := [], hash := 2, hashBlock := 11, txTime := 0, credit := 0,
    debit := 0, valueOut := 0, change := 0, mapFrom := "", mapTo := "",
    isCoinBase := true, isCoinStake := false, depthInMainChain := 3,
    nTimeReceived := 999999, nLockTime := 0, isFinal := true,
    isConfirmed := true, isInMainChain := true, blocksToMaturity := 0,
    requestCount := 1 }

def recC1u : TransactionRecord := TransactionRecord.mkHashTime 1 0

def recC1c : TransactionRecord := TransactionRecord.mkHashTime 2 0

def ctxC1u : ChainContext :=
  { mapBlockIndex := fun _ => none, nBestHeight := 100, adjustedTime := 0 }

def ctxC1c : ChainContext :=
  { mapBlockIndex := fun _ => some 5, nBestHeight := 100, adjustedTime := 0 }

/-- C1 counterexample: for a concrete unconfirmed transaction (sort key
field "2147483647") and a concrete transaction confirmed at height 5 (sort
key field "0000000005"), the unconfirmed `sortKey` is NOT lexicographically
less than the confirmed one, refuting the claim as stated. -/
theorem c1_sortKey_not_lt_counterexample :
    ¬ ((updateStatus recC1u ctxC1u wtxC1u).status.sortKey <
        (updateStatus recC1c ctxC1c wtxC1c).status.sortKey) := by
  rw [String.lt_iff_toList_lt]
  decide

/-- C1 witness: the amended theorem applied at the concrete pair — the
confirmed transaction's key is lexicographically less than the unconfirmed
one's. -/
theorem c1_confirmed_sortKey_lt_unconfirmed_witness :
    ctxC1u.mapBlockIndex wtxC1u.hashBlock = none ∧
    ctxC1c.mapBlockIndex wtxC1c.hashBlock = some 5 ∧
    5 < INT_MAX_SENTINEL ∧
    (updateStatus recC1c ctxC1c wtxC1c).status.sortKey <
      (updateStatus recC1u ctxC1u wtxC1u).status.sortKey :=
  ⟨rfl, rfl, by decide,
    c1_confirmed_sortKey_lt_unconfirmed recC1u recC1c ctxC1u ctxC1c
      wtxC1u wtxC1c 5 rfl rfl (by decide)⟩

/-! ### Claim C2 (corrected): visibility filter -/

/-- C2 (amended): for every coinbase transaction whose depth in the main
chain is less than 2, the visibility filter returns false and
`decomposeTransaction` returns an empty record list; for every non-coinbase
transaction — including stake-mint (coinstake) transactions — the filter
returns true regardless of confirmation depth. -/
theorem c2_coinbase_visibility (wallet : CWallet) (wtx : CWalletTx) :
    (wtx.isCoinBase = true → wtx.depthInMainChain < 2 →
      showTransaction wtx = false ∧ decomposeTransaction wallet wtx = []) ∧
    (wtx.isCoinBase = false → showTransaction wtx = true) := by
  constructor
  · intro hcb hd
    have hshow : showTransaction wtx = false := by
      simp [showTransaction, hcb, hd]
    refine ⟨hshow, ?_⟩
    simp [decomposeTransaction, hshow]
  · intro hcb
    simp [showTransaction, hcb]

def walletC2 : CWallet :=
  { isMineIn := fun _ => true, isMineOut := fun _ => true,
    haveKey := fun _ => true }

def wtxC2 : CWalletTx :=
  { vin := [⟨0⟩], vout := [⟨100, none⟩], hash := 9, hashBlock := 0, txTime := 0,
    credit := 0, debit := 50, valueOut := 100, change := 0, mapFrom := "",
    mapTo := "", isCoinBase := false, isCoinStake := true,
    depthInMainChain := 0, nTimeReceived := 0, nLockTime := 0, isFinal := true,
    isConfirmed := false, isInMainChain := false, blocksToMaturity := 0,
    requestCount := 0 }

/-- C2 counterexample: a stake-mint (coinstake) transaction — a reward-type
transaction per the spec's glossary — at depth 0 (< 2) is nevertheless
visible, and `decomposeTransaction` returns a non-empty record list,
refuting the claim as stated. -/
theorem c2_reward_visibility_counterexample :
    wtxC2.isCoinStake = true ∧ wtxC2.depthInMainChain < 2 ∧
    showTransaction wtxC2 = true ∧
    decomposeTransaction walletC2 wtxC2 ≠ [] := by
  exact ⟨rfl, by decide, rfl, by decide⟩

def wtxC2cb : CWalletTx :=
  { vin := [], vout := [⟨100, none⟩], hash := 10, hashBlock := 0, txTime := 0,
    credit := 100, debit := 0, valueOut := 100, change := 0, mapFrom := "",
    mapTo := "", isCoinBase := true, isCoinStake := false,
    depthInMainChain := 0, nTimeReceived := 0, nLockTime := 0, isFinal := true,
    isConfirmed := false, isInMainChain := false, blocksToMaturity := 0,
    requestCount := 0 }

/-- C2 witness: a coinbase transaction at depth 0 is hidden and decomposes
to the empty list. -/
theorem c2_coinbase_visibility_witness :
    wtxC2cb.isCoinBase = true ∧ wtxC2cb.depthInMainChain < 2 ∧
    showTransaction wtxC2cb = false ∧
    decomposeTransaction walletC2 wtxC2cb = [] :=
  ⟨rfl, by decide, (c2_coinbase_visibility walletC2 wtxC2cb).1 rfl (by decide)⟩

/-! ### Claim C3: the credit branch of the decomposition -/

/-- C3: for every visible non-stake transaction whose net wallet value is
positive or which is a coinbase, `decomposeTransaction` emits exactly one
record per wallet-owned output, in output order with dense indices, with
credit equal to the output's value; the record type is `Generated` for a
coinbase, `RecvWithAddress` with the extracted address as counterparty when
the script resolves to an address whose key the wallet holds, and
`RecvFromOther` with the transaction's "from" label (empty when absent)
otherwise. -/
theorem c3_credit_records (wallet : CWallet) (wtx : CWalletTx)
    (hshow : showTransaction wtx = true)
    (hcs : wtx.isCoinStake = false)
    (hnet : wtx.credit - wtx.debit > 0 ∨ wtx.isCoinBase = true) :
    decomposeTransaction wallet wtx =
      mapIdx (fun i txout =>
        { hash := wtx.hash
          time := wtx.txTime
          type := if wtx.isCoinBase then .Generated
            else match txout.extAddress with
              | some a =>
                if wallet.haveKey a then .RecvWithAddress else .RecvFromOther
              | none => .RecvFromOther
          address := if wtx.isCoinBase then ""
            else match txout.extAddress with
              | some a => if wallet.haveKey a then a else wtx.mapFrom
              | none => wtx.mapFrom
          debit := 0
          credit := txout.nValue
          idx := i
          status := TransactionStatus.init })
        0 (wtx.vout.filter wallet.isMineOut) := by
  simp only [decomposeTransaction]
  rw [if_pos hshow, if_neg (by simp [hcs]), if_pos hnet, creditLoop_eq]
  simp only [List.nil_append, List.length_nil]

def walletC3 : CWallet :=
  { isMineIn := fun _ => true, isMineOut := fun _ => true,
    haveKey := fun _ => true }

def wtxC3 : CWalletTx :=
  { vin := [], vout := [⟨100, none⟩, ⟨200, none⟩], hash := 4, hashBlock := 0,
    txTime := 0, credit := 300, debit := 0, valueOut := 300, change := 0,
    mapFrom := "", mapTo := "", isCoinBase := true, isCoinStake := false,
    depthInMainChain := 2, nTimeReceived := 0, nLockTime := 0, isFinal := true,
    isConfirmed := true, isInMainChain := true, blocksToMaturity := 100,
    requestCount := 0 }

/-- C3 witness: the spec scenario — a coinbase with two wallet-owned outputs
of 100 and 200 at depth 2 decomposes into two `Generated` records with
credits 100 and 200 and indices 0 and 1. -/
theorem c3_credit_records_witness :
    showTransaction wtxC3 = true ∧ wtxC3.isCoinStake = false ∧
    (wtxC3.credit - wtxC3.debit > 0 ∨ wtxC3.isCoinBase = true) ∧
    decomposeTransaction walletC3 wtxC3 =
      [{ hash := 4, time := 0, type := .Generated, address := "", debit := 0,
         credit := 100, idx := 0, status := TransactionStatus.init },
       { hash := 4, time := 0, type := .Generated, address := "", debit := 0,
         credit := 200, idx := 1, status := TransactionStatus.init }] := by
  refine ⟨rfl, rfl, Or.inr rfl, ?_⟩
  rw [c3_credit_records walletC3 wtxC3 rfl rfl (Or.inr rfl)]
  decide

/-! ### Claim C4: the debit branch and the fee fold -/

/-- C4: for every visible transaction in the debit case (all inputs
wallet-owned, not all outputs wallet-owned, net value not positive, neither
coinbase nor coinstake) with nonnegative fee, `decomposeTransaction` skips
wallet-owned outputs, emits one record per external output in output order
with dense indices, and adds the whole fee (total debit minus total output
value) to exactly the first emitted record: the first record's debit is
`-(outputValue + fee)` and every later record's debit is `-outputValue`. -/
theorem c4_debit_records (wallet : CWallet) (wtx : CWalletTx)
    (hshow : showTransaction wtx = true)
    (hcs : wtx.isCoinStake = false)
    (hnet : ¬ (wtx.credit - wtx.debit > 0 ∨ wtx.isCoinBase = true))
    (hfrom : wtx.vin.all wallet.isMineIn = true)
    (hto : wtx.vout.all wallet.isMineOut = false)
    (hfee : 0 ≤ wtx.debit - wtx.valueOut) :
    decomposeTransaction wallet wtx =
      mapIdx (fun i txout =>
        { hash := wtx.hash
          time := wtx.txTime
          type := match txout.extAddress with
            | some _ => .SendToAddress
            | none => .SendToOther
          address := match txout.extAddress with
            | some a => a
            | none => wtx.mapTo
          debit := -(txout.nValue +
            if i = 0 then wtx.debit - wtx.valueOut else 0)
          credit := 0
          idx := i
          status := TransactionStatus.init })
        0 (wtx.vout.filter (fun o => ! wallet.isMineOut o)) := by
  simp only [decomposeTransaction]
  rw [if_pos hshow, if_neg (by simp [hcs]), if_neg hnet,
    if_neg (by simp [hto]), if_pos hfrom, debitLoop_eq]
  simp only [List.nil_append, List.length_nil]
  apply mapIdx_congr
  intro i o _
  have hcond : (if i = 0 ∧ wtx.debit - wtx.valueOut > 0
      then wtx.debit - wtx.valueOut else 0) =
      (if i = 0 then wtx.debit - wtx.valueOut else 0) := by
    by_cases hi0 : i = 0
    · by_cases hf : wtx.debit - wtx.valueOut > 0
      · simp [hi0, hf]
      · simp only [hi0, true_and, if_pos, if_neg hf]
        omega
    · simp [hi0]
  rw [hcond]

def walletC4 : CWallet :=
  { isMineIn := fun _ => true, isMineOut := fun _ => false,
    haveKey := fun _ => true }

def wtxC4 : CWalletTx :=
  { vin := [⟨0⟩], vout := [⟨500, some "1dest"⟩], hash := 5, hashBlock := 0,
    txTime := 0, credit := 0, debit := 510, valueOut := 500, change := 0,
    mapFrom := "", mapTo := "", isCoinBase := false, isCoinStake := false,
    depthInMainChain := 0, nTimeReceived := 0, nLockTime := 0, isFinal := true,
    isConfirmed := false, isInMainChain := false, blocksToMaturity := 0,
    requestCount := 0 }

/-- C4 witness: the spec scenario — a fully wallet-funded transaction with
one external output of 500 and fee 10 yields a single `SendToAddress`
record with debit -510. -/
theorem c4_debit_records_witness :
    showTransaction wtxC4 = true ∧ wtxC4.isCoinStake = false ∧
    ¬ (wtxC4.credit - wtxC4.debit > 0 ∨ wtxC4.isCoinBase = true) ∧
    wtxC4.vin.all walletC4.isMineIn = true ∧
    wtxC4.vout.all walletC4.isMineOut = false ∧
    wtxC4.debit - wtxC4.valueOut = 10 ∧
    decomposeTransaction walletC4 wtxC4 =
      [{ hash := 5, time := 0, type := .SendToAddress, address := "1dest",
         debit := -510, credit := 0, idx := 0,
         status := TransactionStatus.init }] := by
  refine ⟨rfl, rfl, by decide, rfl, rfl, by decide, ?_⟩
  rw [c4_debit_records walletC4 wtxC4 rfl rfl (by decide) rfl rfl (by decide)]
  decide

/-! ### Claim C5: the self-payment branch -/

/-- C5: for every visible transaction that is neither coinstake nor in the
net-credit/coinbase branch, with all inputs and all outputs wallet-owned,
`decomposeTransaction` emits exactly one `SendToSelf` record with empty
counterparty, `debit = -(totalDebit - change)` and
`credit = totalCredit - change`. -/
theorem c5_send_to_self (wallet : CWallet) (wtx : CWalletTx)
    (hshow : showTransaction wtx = true)
    (hcs : wtx.isCoinStake = false)
    (hnet : ¬ (wtx.credit - wtx.debit > 0 ∨ wtx.isCoinBase = true))
    (hfrom : wtx.vin.all wallet.isMineIn = true)
    (hto : wtx.vout.all wallet.isMineOut = true) :
    decomposeTransaction wallet wtx =
      [TransactionRecord.mkFull wtx.hash wtx.txTime .SendToSelf ""
        (-(wtx.debit - wtx.change)) (wtx.credit - wtx.change)] := by
  simp only [decomposeTransaction]
  rw [if_pos hshow, if_neg (by simp [hcs]), if_neg hnet,
    if_pos (by simp [hfrom, hto])]

def walletC5 : CWallet :=
  { isMineIn := fun _ => true, isMineOut := fun _ => true,
    haveKey := fun _ => true }

def wtxC5 : CWalletTx :=
  { vin := [⟨0⟩], vout := [⟨990, none⟩], hash := 3, hashBlock := 0,
    txTime := 0, credit := 990, debit := 1000, valueOut := 990, change := 990,
    mapFrom := "", mapTo := "", isCoinBase := false, isCoinStake := false,
    depthInMainChain := 0, nTimeReceived := 0, nLockTime := 0, isFinal := true,
    isConfirmed := false, isInMainChain := false, blocksToMaturity := 0,
    requestCount := 0 }

/-- C5 witness: the spec scenario — a self-payment with totalDebit 1000,
totalCredit 990 and change 990 yields one `SendToSelf` record with
debit -10 and credit 0. -/
theorem c5_send_to_self_witness :
    showTransaction wtxC5 = true ∧ wtxC5.isCoinStake = false ∧
    ¬ (wtxC5.credit - wtxC5.debit > 0 ∨ wtxC5.isCoinBase = true) ∧
    wtxC5.vin.all walletC5.isMineIn = true ∧
    wtxC5.vout.all walletC5.isMineOut = true ∧
    decomposeTransaction walletC5 wtxC5 =
      [TransactionRecord.mkFull 3 0 .SendToSelf "" (-10) 0] := by
  refine ⟨rfl, rfl, by decide, rfl, rfl, ?_⟩
  rw [c5_send_to_self walletC5 wtxC5 rfl rfl (by decide) rfl rfl]
  decide

/-! ### Claim C6: the mixed-ownership branch -/

/-- C6: for every visible transaction with mixed ownership (not all inputs
wallet-owned and not all outputs wallet-owned, net value not positive,
neither coinbase nor coinstake), `decomposeTransaction` emits exactly one
record of type `Other` with empty counterparty, debit equal to the raw net
value, and credit 0. -/
theorem c6_mixed_other (wallet : CWallet) (wtx : CWalletTx)
    (hshow : showTransaction wtx = true)
    (hcs : wtx.isCoinStake = false)
    (hnet : ¬ (wtx.credit - wtx.debit > 0 ∨ wtx.isCoinBase = true))
    (hfrom : wtx.vin.all wallet.isMineIn = false)
    (_hto : wtx.vout.all wallet.isMineOut = false) :
    decomposeTransaction wallet wtx =
      [TransactionRecord.mkFull wtx.hash wtx.txTime .Other ""
        (wtx.credit - wtx.debit) 0] := by
  simp only [decomposeTransaction]
  rw [if_pos hshow, if_neg (by simp [hcs]), if_neg hnet,
    if_neg (by simp [hfrom]), if_neg (by simp [hfrom])]

def walletC6 : CWallet :=
  { isMineIn := fun i => i.tag == 0, isMineOut := fun _ => false,
    haveKey := fun _ => true }

def wtxC6 : CWalletTx :=
  { vin := [⟨0⟩, ⟨1⟩], vout := [⟨30, none⟩], hash := 6, hashBlock := 0,
    txTime := 0, credit := 50, debit := 100, valueOut := 30, change := 0,
    mapFrom := "", mapTo := "", isCoinBase := false, isCoinStake := false,
    depthInMainChain := 0, nTimeReceived := 0, nLockTime := 0, isFinal := true,
    isConfirmed := false, isInMainChain := false, blocksToMaturity := 0,
    requestCount := 0 }

/-- C6 witness: the spec scenario — a mixed-ownership transaction with net
value -50 yields one `Other` record with debit -50 and credit 0. -/
theorem c6_mixed_other_witness :
    showTransaction wtxC6 = true ∧ wtxC6.isCoinStake = false ∧
    ¬ (wtxC6.credit - wtxC6.debit > 0 ∨ wtxC6.isCoinBase = true) ∧
    wtxC6.vin.all walletC6.isMineIn = false ∧
    wtxC6.vout.all walletC6.isMineOut = false ∧
    decomposeTransaction walletC6 wtxC6 =
      [TransactionRecord.mkFull 6 0 .Other "" (-50) 0] := by
  refine ⟨rfl, rfl, by decide, rfl, rfl, ?_⟩
  rw [c6_mixed_other walletC6 wtxC6 rfl rfl (by decide) rfl rfl]
  decide

/-! ### Claim C7: indices are a dense 0-based sequence -/

/-- C7: for every transaction, the `idx` fields of the record list returned
by `decomposeTransaction` form the dense 0-based sequence 0, 1, …, n-1 in
list order, with no gaps and no duplicates, in every branch. -/
theorem c7_dense_indices (wallet : CWallet) (wtx : CWalletTx) :
    (decomposeTransaction wallet wtx).map TransactionRecord.idx =
      List.range (decomposeTransaction wallet wtx).length := by
  simp only [decomposeTransaction]
  by_cases hshow : showTransaction wtx = true
  · rw [if_pos hshow]
    by_cases hcs : wtx.isCoinStake = true
    · rw [if_pos hcs]
      simp [TransactionRecord.mkFull, List.range_succ]
    · rw [if_neg hcs]
      by_cases hnet : wtx.credit - wtx.debit > 0 ∨ wtx.isCoinBase = true
      · rw [if_pos hnet, creditLoop_eq]
        simp only [List.nil_append, List.length_nil]
        rw [mapIdx_map_idx _ (fun i a => rfl), mapIdx_length,
          List.range_eq_range']
      · rw [if_neg hnet]
        by_cases hself : wtx.vin.all wallet.isMineIn = true ∧
            wtx.vout.all wallet.isMineOut = true
        · rw [if_pos hself]
          simp [TransactionRecord.mkFull, List.range_succ]
        · rw [if_neg hself]
          by_cases hfrom : wtx.vin.all wallet.isMineIn = true
          · rw [if_pos hfrom, debitLoop_eq]
            simp only [List.nil_append, List.length_nil]
            rw [mapIdx_map_idx _ (fun i a => rfl), mapIdx_length,
              List.range_eq_range']
          · rw [if_neg hfrom]
            simp [TransactionRecord.mkFull, List.range_succ]
  · rw [if_neg hshow]
    rfl

end GorillaTeeth
